import Mathlib

/-!
Verification of the TaskFlow task-management application.

The definitions below are a shallow embedding of the repository's code:
  * `server/models/Task.js` — the Task schema, its pre-save middleware,
    the `isOverdue` virtual and the `getTaskStats` static;
  * `server/controllers/taskController.js` — `getTasks`, `getTask`,
    `createTask`, `updateTask`, `deleteTask`, `toggleArchiveTask`,
    `bulkUpdateTasks`;
  * `server/middleware/validation.js` — `validateTaskQuery`'s limit bound;
  * `src/utils/auth.ts` — `generateToken`, `verifyToken`, password hashing;
  * `src/utils/api.ts` — the client-side `TaskAPI` (register, login,
    updateTask);
  * `src/components/Dashboard.tsx` — `filteredAndSortedTasks`.

The MongoDB collection is modelled as a `List Task`; `_id` values are `Nat`,
dates are `Int` milliseconds (JS epoch-millisecond timestamps).
-/

namespace TaskFlow

/-- Task priority enum: `['low', 'medium', 'high']` (Task.js). -/
inductive Priority where
  | low
  | medium
  | high
deriving DecidableEq, Repr

/-- Task status enum: `['todo', 'in-progress', 'completed']` (Task.js). -/
inductive Status where
  | todo
  | inProgress
  | completed
deriving DecidableEq, Repr

/-- The string stored in MongoDB for a priority value. -/
def priorityStr : Priority → String
  | .low => "low"
  | .medium => "medium"
  | .high => "high"

/-- The string stored in MongoDB for a status value. -/
def statusStr : Status → String
  | .todo => "todo"
  | .inProgress => "in-progress"
  | .completed => "completed"

/-- A document of the `Task` collection (TaskSchema in Task.js).
`createdAt`/`updatedAt` come from `timestamps: true`. -/
structure Task where
  id : Nat
  user : Nat
  title : String
  description : String
  priority : Priority
  status : Status
  dueDate : Option Int
  completedAt : Option Int
  tags : List String
  isArchived : Bool
  createdAt : Int
  updatedAt : Int
deriving DecidableEq, Repr

/-- The `TaskSchema.pre('save')` middleware (Task.js lines 60–69):
when the status path was modified, set `completedAt` to now if the status is
`completed` and `completedAt` is unset, and clear it if the status is not
`completed`.  Runs only on `save()` / `create()`, never on
`findByIdAndUpdate` or `updateMany`. -/
def preSaveHook (statusModified : Bool) (now : Int) (t : Task) : Task :=
  if statusModified then
    if t.status = Status.completed ∧ t.completedAt = none then
      { t with completedAt := some now }
    else if t.status ≠ Status.completed then
      { t with completedAt := none }
    else t
  else t

/-- The `isOverdue` virtual (Task.js lines 77–79):
`this.dueDate && this.dueDate < new Date() && this.status !== 'completed'`.
A missing `dueDate` is falsy, so the conjunction short-circuits to false. -/
def Task.isOverdue (now : Int) (t : Task) : Bool :=
  match t.dueDate with
  | none => false
  | some d => decide (d < now) && decide (t.status ≠ Status.completed)

/-- A partial update document, as sent in `req.body` of PUT /tasks/:id or in
the `updates` object of PATCH /tasks/bulk.  `none` means the field is absent
from the body; for `dueDate`/`completedAt` a present field may itself be
null, hence the nested `Option`. -/
structure TaskPatch where
  title : Option String := none
  description : Option String := none
  priority : Option Priority := none
  status : Option Status := none
  dueDate : Option (Option Int) := none
  completedAt : Option (Option Int) := none
  user : Option Nat := none
  tags : Option (List String) := none
  isArchived : Option Bool := none
deriving DecidableEq, Repr

/-- Mongoose `findByIdAndUpdate(id, body)` / `updateMany(_, updates)` field
application: each field present in the body replaces the stored field; no
save middleware runs.  `updatedAt` is refreshed by `timestamps: true`. -/
def applyPatch (p : TaskPatch) (now : Int) (t : Task) : Task :=
  { t with
    title := p.title.getD t.title
    description := p.description.getD t.description
    priority := p.priority.getD t.priority
    status := p.status.getD t.status
    dueDate := p.dueDate.getD t.dueDate
    completedAt := p.completedAt.getD t.completedAt
    user := p.user.getD t.user
    tags := p.tags.getD t.tags
    isArchived := p.isArchived.getD t.isArchived
    updatedAt := now }

/-- `Task.findOne({_id: id, user: callerId})`. -/
def findOwned (callerId taskId : Nat) (db : List Task) : Option Task :=
  db.find? (fun t => decide (t.id = taskId) && decide (t.user = callerId))

/-- `getTask` (taskController.js lines 72–94): ownership-scoped lookup;
a missing or non-owned id yields the 404 response `Task not found`. -/
def getTask (callerId taskId : Nat) (db : List Task) : Except String Task :=
  match findOwned callerId taskId db with
  | none => .error "Task not found"
  | some t => .ok t

/-- `updateTask` (taskController.js lines 127–165): ownership-scoped
`findOne`, then `findByIdAndUpdate(req.params.id, req.body)` — the raw body
is applied directly and the pre-save middleware does not run.  Returns the
updated document and the updated collection. -/
def updateTask (callerId taskId : Nat) (body : TaskPatch) (now : Int)
    (db : List Task) : Except String (Task × List Task) :=
  match findOwned callerId taskId db with
  | none => .error "Task not found"
  | some t =>
      .ok (applyPatch body now t,
           db.map (fun u => if u.id = taskId then applyPatch body now u else u))

/-- `deleteTask` (taskController.js lines 170–199): ownership-scoped
`findOne`, then `task.deleteOne()`. -/
def deleteTask (callerId taskId : Nat) (db : List Task) :
    Except String (List Task) :=
  match findOwned callerId taskId db with
  | none => .error "Task not found"
  | some _ => .ok (db.filter (fun t => !(decide (t.id = taskId))))

/-- The body of POST /tasks.  The client may try to supply a `user`
field; the controller overwrites it. -/
structure CreateBody where
  title : String
  description : String := ""
  priority : Priority := .medium
  status : Status := .todo
  dueDate : Option Int := none
  completedAt : Option Int := none
  tags : List String := []
  user : Option Nat := none
deriving DecidableEq, Repr

/-- `createTask` (taskController.js lines 99–122): `req.body.user =
req.user.id` overwrites any client-supplied owner, then `Task.create`
persists the document, running the pre-save middleware (every path of a new
document counts as modified, so the status branch runs). -/
def createTask (callerId : Nat) (body : CreateBody) (newId : Nat) (now : Int)
    (db : List Task) : Task × List Task :=
  let t : Task :=
    { id := newId
      user := callerId
      title := body.title
      description := body.description
      priority := body.priority
      status := body.status
      dueDate := body.dueDate
      completedAt := body.completedAt
      tags := body.tags
      isArchived := false
      createdAt := now
      updatedAt := now }
  let saved := preSaveHook true now t
  (saved, db ++ [saved])

/-- `toggleArchiveTask` (taskController.js lines 221–252): flips
`isArchived` and calls `save()`; the status path is untouched, so the
pre-save status branch does not fire. -/
def toggleArchiveTask (callerId taskId : Nat) (now : Int) (db : List Task) :
    Except String (Task × List Task) :=
  match findOwned callerId taskId db with
  | none => .error "Task not found"
  | some t =>
      let t2 := preSaveHook false now { t with isArchived := !t.isArchived }
      .ok (t2, db.map (fun u => if u.id = taskId then t2 else u))

/-- `bulkUpdateTasks` (taskController.js lines 257–292): empty `taskIds`
is a 400 `Task IDs array is required`; otherwise
`Task.updateMany({_id: {$in: taskIds}, user: req.user.id}, updates)` —
ids owned by other users are silently not matched.  `modifiedCount` counts
the documents whose stored value actually changed. -/
def bulkUpdateTasks (callerId : Nat) (taskIds : List Nat) (updates : TaskPatch)
    (now : Int) (db : List Task) : Except String (Nat × List Task) :=
  if taskIds.isEmpty then
    .error "Task IDs array is required"
  else
    let matched : Task → Bool :=
      fun t => decide (t.id ∈ taskIds) && decide (t.user = callerId)
    let db2 := db.map (fun t => if matched t then applyPatch updates now t else t)
    let modifiedCount :=
      (db.filter (fun t => matched t && decide (applyPatch updates now t ≠ t))).length
    .ok (modifiedCount, db2)

/-! ### Sorting

Both MongoDB (`sortObj[sortBy] = ±1` in `getTasks`) and JS `Array.sort`
(in `Dashboard.filteredAndSortedTasks`) perform a stable sort with respect
to a total preorder on the sort key; we model the sort itself with a stable
insertion sort, which agrees with any stable sort for a total preorder.
String-typed fields compare lexicographically by code point (every enum
string here is ASCII, where BSON byte order, JS UTF-16 order and code-point
order coincide). -/

/-- Lexicographic order on character lists (code-point comparison). -/
def charsLt : List Char → List Char → Bool
  | [], [] => false
  | [], _ :: _ => true
  | _ :: _, [] => false
  | a :: as, b :: bs =>
      if a < b then true else if b < a then false else charsLt as bs

/-- Lexicographic strict order on strings. -/
def strLt (a b : String) : Bool := charsLt a.data b.data

/-- Stable insertion into a sorted list: `x` goes before the first element
`y` with `le x y`.  Since `x` precedes the tail in the original list, ties
keep the original order. -/
def insertSorted (le : α → α → Bool) (x : α) : List α → List α
  | [] => [x]
  | y :: ys => if le x y then x :: y :: ys else y :: insertSorted le x ys

/-- Stable insertion sort with respect to the boolean preorder `le`. -/
def sortList (le : α → α → Bool) : List α → List α
  | [] => []
  | x :: xs => insertSorted le x (sortList le xs)

/-- The allowed `sortBy` values of GET /tasks (validateTaskQuery). -/
inductive SortField where
  | title
  | priority
  | status
  | createdAt
  | updatedAt
deriving DecidableEq, Repr

/-- MongoDB's "is `a` before `b`" for ascending order on a field:
string fields (`title`, `priority`, `status`) compare lexicographically as
raw strings; date fields compare by instant. -/
def serverFieldLe (f : SortField) (a b : Task) : Bool :=
  match f with
  | .title => !(strLt b.title a.title)
  | .priority => !(strLt (priorityStr b.priority) (priorityStr a.priority))
  | .status => !(strLt (statusStr b.status) (statusStr a.status))
  | .createdAt => decide (a.createdAt ≤ b.createdAt)
  | .updatedAt => decide (a.updatedAt ≤ b.updatedAt)

/-- The `.sort(sortObj)` step of `getTasks` (taskController.js line 44):
`sortOrder === 'asc' ? 1 : -1` on the chosen field. -/
def serverSort (f : SortField) (asc : Bool) (l : List Task) : List Task :=
  sortList (fun a b => if asc then serverFieldLe f a b else serverFieldLe f b a) l

/-- `priorityOrder = { high: 3, medium: 2, low: 1 }` (Dashboard.tsx). -/
def priorityOrder : Priority → Nat
  | .high => 3
  | .medium => 2
  | .low => 1

/-- `statusOrder = { todo: 1, 'in-progress': 2, completed: 3 }`
(Dashboard.tsx). -/
def statusOrder : Status → Nat
  | .todo => 1
  | .inProgress => 2
  | .completed => 3

/-- The client comparator of `Dashboard.filteredAndSortedTasks`:
priority and status map through their ordinal tables, dates through
`getTime()`, and the comparator `aValue > bValue ? 1 : -1` (asc) places `a`
before `b` exactly when `aValue ≤ bValue`. -/
def clientFieldLe (f : SortField) (a b : Task) : Bool :=
  match f with
  | .title => !(strLt b.title a.title)
  | .priority => decide (priorityOrder a.priority ≤ priorityOrder b.priority)
  | .status => decide (statusOrder a.status ≤ statusOrder b.status)
  | .createdAt => decide (a.createdAt ≤ b.createdAt)
  | .updatedAt => decide (a.updatedAt ≤ b.updatedAt)

/-- The `.sort` step of `Dashboard.filteredAndSortedTasks`. -/
def clientSort (f : SortField) (asc : Bool) (l : List Task) : List Task :=
  sortList (fun a b => if asc then clientFieldLe f a b else clientFieldLe f b a) l

/-! ### Listing, filtering, pagination -/

/-- Is `needle` a contiguous sublist of `hay`? -/
def charsStartWith : List Char → List Char → Bool
  | [], _ => true
  | _ :: _, [] => false
  | a :: as, b :: bs => decide (a = b) && charsStartWith as bs

/-- Contiguous-sublist check used for `$regex` substring search. -/
def charsContain (needle hay : List Char) : Bool :=
  match hay with
  | [] => needle.isEmpty
  | _ :: rest => charsStartWith needle hay || charsContain needle rest

/-- Case-insensitive substring match, modelling
`{$regex: search, $options: 'i'}` on a plain search string. -/
def containsCI (needle hay : String) : Bool :=
  charsContain needle.toLower.data hay.toLower.data

/-- The parsed query parameters of GET /tasks with their defaults
(taskController.js lines 9–18). -/
structure ListQuery where
  page : Nat := 1
  limit : Nat := 10
  search : Option String := none
  priority : Option Priority := none
  status : Option Status := none
  sortField : SortField := .createdAt
  sortAsc : Bool := false
  includeArchived : Bool := false
deriving Repr

/-- The MongoDB filter built by `getTasks` (lines 20–36): owner match,
archived exclusion unless `includeArchived`, `$or` substring search over
title and description, exact priority/status matches. -/
def matchesQuery (callerId : Nat) (q : ListQuery) (t : Task) : Bool :=
  decide (t.user = callerId)
  && (q.includeArchived || !t.isArchived)
  && (match q.search with
      | none => true
      | some s => containsCI s t.title || containsCI s t.description)
  && (match q.priority with
      | none => true
      | some p => decide (t.priority = p))
  && (match q.status with
      | none => true
      | some st => decide (t.status = st))

/-- The list-response envelope of GET /tasks (lines 52–62). -/
structure ListResult where
  count : Nat
  total : Nat
  page : Nat
  limit : Nat
  pages : Nat
  data : List Task
deriving DecidableEq, Repr

/-- `getTasks` (taskController.js lines 7–67): filter, sort,
`.skip((page-1)*limit).limit(limit)`, `total = countDocuments(query)` on
the filtered set, `pages = Math.ceil(total/limit)` (written on naturals as
`(total + limit - 1) / limit`, the value of the JS expression for a
positive integer `limit`). -/
def getTasks (callerId : Nat) (q : ListQuery) (db : List Task) : ListResult :=
  let filtered := db.filter (matchesQuery callerId q)
  let sorted := serverSort q.sortField q.sortAsc filtered
  let pageTasks := (sorted.drop ((q.page - 1) * q.limit)).take q.limit
  let total := filtered.length
  { count := pageTasks.length
    total := total
    page := q.page
    limit := q.limit
    pages := (total + q.limit - 1) / q.limit
    data := pageTasks }

/-- The `limit` rule of `validateTaskQuery` (validation.js lines 406–409):
`optional().isInt({ min: 1, max: 100 })`. -/
def validateLimitParam (limit : Option Int) : Bool :=
  match limit with
  | none => true
  | some l => decide (1 ≤ l) && decide (l ≤ 100)

/-! ### Statistics -/

/-- The stats document returned by `getTaskStats`. -/
structure TaskStats where
  total : Nat
  completed : Nat
  inProgress : Nat
  todo : Nat
  highPriority : Nat
  overdue : Nat
deriving DecidableEq, Repr

/-- The explicit all-zero fallback of `getTaskStats` (Task.js lines
120–127), returned when the aggregation produced no group. -/
def zeroStats : TaskStats :=
  { total := 0, completed := 0, inProgress := 0, todo := 0
    highPriority := 0, overdue := 0 }

/-- The `overdue` condition of the aggregation (Task.js lines 101–115):
`$and [dueDate < now, status ≠ 'completed', dueDate ≠ null]`.  For a
document without a `dueDate`, the missing path compares equal to null in
aggregation expressions, so the `$ne null` conjunct is false and the task
is not counted. -/
def overdueAgg (now : Int) (t : Task) : Bool :=
  match t.dueDate with
  | none => false
  | some d => decide (d < now) && decide (t.status ≠ Status.completed)

/-- `Task.getTaskStats` (Task.js lines 82–128): `$match` on the owner and
`isArchived: false`, then a single `$group` of conditional counts; an empty
match stage yields no group and the explicit zero record is returned. -/
def getTaskStats (userId : Nat) (now : Int) (db : List Task) : TaskStats :=
  let matched := db.filter (fun t => decide (t.user = userId) && !t.isArchived)
  if matched.isEmpty then zeroStats
  else
    { total := matched.length
      completed := (matched.filter (fun t => decide (t.status = Status.completed))).length
      inProgress := (matched.filter (fun t => decide (t.status = Status.inProgress))).length
      todo := (matched.filter (fun t => decide (t.status = Status.todo))).length
      highPriority := (matched.filter (fun t => decide (t.priority = Priority.high))).length
      overdue := (matched.filter (overdueAgg now)).length }

/-! ### Token service (src/utils/auth.ts)

`generateToken` produces `btoa(JSON.stringify(payload))`.  The composite
`btoa ∘ JSON.stringify` is injective and `JSON.parse ∘ atob` is its
left inverse, so a token string is faithfully represented by its parse
result: either the decoded payload object, or a malformed string on which
`atob`/`JSON.parse` throws.  There is no signature: every well-formed
payload string is in the image of the encoding and decodes successfully. -/

/-- A user object as held by the client (`User` in src/types). -/
structure ClientUser where
  id : String
  username : String
  email : String
  createdAt : String
deriving DecidableEq, Repr

/-- The JSON payload of a token (auth.ts lines 5–10): identity claims and
an absolute expiry in epoch milliseconds. -/
structure TokenPayload where
  id : String
  username : String
  email : String
  exp : Int
deriving DecidableEq, Repr

/-- A token string, represented by its decode result: `wellFormed p` is the
base64 JSON encoding of `p`; `malformed s` is any string on which
`atob`/`JSON.parse` throws. -/
inductive TokenString where
  | wellFormed (p : TokenPayload) : TokenString
  | malformed (s : String) : TokenString
deriving DecidableEq, Repr

/-- The 24-hour TTL of auth.ts line 9, in milliseconds. -/
def tokenTTL : Int := 24 * 60 * 60 * 1000

/-- `generateToken` (auth.ts lines 4–12): encode id, username, email and
`exp = Date.now() + 24h`; no signature of any kind is attached. -/
def generateToken (user : ClientUser) (now : Int) : TokenString :=
  .wellFormed
    { id := user.id, username := user.username, email := user.email
      exp := now + tokenTTL }

/-- `verifyToken` (auth.ts lines 14–29): parse (`null` on a parse failure),
reject when `payload.exp < Date.now()`, otherwise return the claims; the
payload carries no `createdAt`, so `payload.createdAt || new Date()`
yields the current time string `nowISO`. -/
def verifyToken (t : TokenString) (now : Int) (nowISO : String) :
    Option ClientUser :=
  match t with
  | .malformed _ => none
  | .wellFormed p =>
      if p.exp < now then none
      else some { id := p.id, username := p.username, email := p.email
                  createdAt := nowISO }

/-! ### Client-side API (src/utils/api.ts) -/

/-- A stored user record of `TaskAPI.users`: a `ClientUser` plus the
password hash. -/
structure StoredUser where
  id : String
  username : String
  email : String
  password : String
  createdAt : String
deriving DecidableEq, Repr

/-- `StoredUser` with the password stripped
(`const { password: _, ...userWithoutPassword }`). -/
def StoredUser.public (u : StoredUser) : ClientUser :=
  { id := u.id, username := u.username, email := u.email
    createdAt := u.createdAt }

/-- `TaskAPI.register` (api.ts lines 27–49), parametrised by the
deterministic hash function of auth.ts (`SHA-256(password + 'salt')` hex):
reject a duplicate email, store the hashed password, return the public
user and a fresh token.  `newId` stands for `Date.now().toString()` and
`nowISO` for `new Date().toISOString()`. -/
def register (hash : String → String) (username email password : String)
    (newId nowISO : String) (now : Int) (users : List StoredUser) :
    Except String (ClientUser × TokenString × List StoredUser) :=
  match users.find? (fun u => u.email = email) with
  | some _ => .error "User already exists with this email"
  | none =>
      let u : StoredUser :=
        { id := newId, username := username, email := email
          password := hash password, createdAt := nowISO }
      .ok (u.public, generateToken u.public now, users ++ [u])

/-- `TaskAPI.login` (api.ts lines 51–66): look the email up; a missing
user and a failed `comparePassword` (hash of the supplied password differs
from the stored hash) both raise the same `Invalid credentials` error, and
no token is produced on either path. -/
def login (hash : String → String) (email password : String) (now : Int)
    (users : List StoredUser) : Except String (ClientUser × TokenString) :=
  match users.find? (fun u => u.email = email) with
  | none => .error "Invalid credentials"
  | some u =>
      if hash password = u.password then
        .ok (u.public, generateToken u.public now)
      else .error "Invalid credentials"

/-- A task record of the client store (`Task` in src/types). -/
structure ClientTask where
  id : String
  userId : String
  title : String
  description : String
  priority : Priority
  status : Status
  createdAt : String
  updatedAt : String
deriving DecidableEq, Repr

/-- A partial update of a `ClientTask` (`Partial<Task>`). -/
structure ClientTaskPatch where
  title : Option String := none
  description : Option String := none
  priority : Option Priority := none
  status : Option Status := none
deriving DecidableEq, Repr

/-- Spread of a `Partial<Task>` over a task
(`{ ...task, ...updates, updatedAt }`). -/
def applyClientPatch (p : ClientTaskPatch) (nowISO : String)
    (t : ClientTask) : ClientTask :=
  { t with
    title := p.title.getD t.title
    description := p.description.getD t.description
    priority := p.priority.getD t.priority
    status := p.status.getD t.status
    updatedAt := nowISO }

/-- `TaskAPI.updateTask` (api.ts lines 86–100): `findIndex(t => t.id ===
taskId && t.userId === userId)`; `-1` — covering both a missing id and an
id owned by another user — raises `Task not found`; otherwise the patch is
spread over the record in place. -/
def clientUpdateTask (userId taskId : String) (updates : ClientTaskPatch)
    (nowISO : String) (tasks : List ClientTask) :
    Except String (ClientTask × List ClientTask) :=
  match tasks.find? (fun t => decide (t.id = taskId) && decide (t.userId = userId)) with
  | none => .error "Task not found"
  | some t =>
      .ok (applyClientPatch updates nowISO t,
           tasks.map (fun u =>
             if u.id = taskId ∧ u.userId = userId
             then applyClientPatch updates nowISO u else u))

/-! ### Concrete fixtures used in closed statements -/

/-- A task with every optional field at its default. -/
def mkTask (id user : Nat) (p : Priority) (s : Status) : Task :=
  { id := id, user := user, title := "t", description := ""
    priority := p, status := s, dueDate := none, completedAt := none
    tags := [], isArchived := false, createdAt := 0, updatedAt := 0 }

/-- A completed task of user 1 whose `completedAt` is set. -/
def doneTask : Task :=
  { mkTask 1 1 Priority.medium Status.completed with completedAt := some 100 }

end TaskFlow

namespace TaskFlow

/-! ### C1: the completed-at invariant -/

/-- The pre-save middleware does maintain the invariant on the `save()`
path: after a save where the status path changed, the status is
`completed` exactly when `completedAt` is set. -/
theorem preSaveHook_invariant (now : Int) (t : Task) :
    ((preSaveHook true now t).status = Status.completed
      ↔ (preSaveHook true now t).completedAt ≠ none) := by
  unfold preSaveHook
  by_cases hs : t.status = Status.completed
  · by_cases hc : t.completedAt = none
    · simp [hs, hc]
    · simp [hs, hc]
  · simp [hs]

/-- C1.  The claim fails on the code: `updateTask` runs
`findByIdAndUpdate`, which bypasses the pre-save middleware, so updating a
completed task (with `completedAt = 100`) to status `todo` leaves
`completedAt` set while the status is no longer `completed` — even though
the model's own middleware, had it run, would have cleared the field. -/
theorem completedAt_stale_after_update :
    (updateTask 1 1 { status := some Status.todo } 200 [doneTask]
       = .ok ({ doneTask with status := Status.todo, updatedAt := 200 },
              [{ doneTask with status := Status.todo, updatedAt := 200 }]))
    ∧ ({ doneTask with status := Status.todo, updatedAt := 200 }).status
        ≠ Status.completed
    ∧ ({ doneTask with status := Status.todo, updatedAt := 200 }).completedAt
        = some 100
    ∧ (preSaveHook true 200 { doneTask with status := Status.todo }).completedAt
        = none := by
  refine ⟨rfl, by decide, by decide, by decide⟩

/-! ### C2: ownership isolation -/

/-- C2.  When no task in the store has the requested id AND the caller as
owner — which covers both a non-existent id and an id owned by a different
user — `getTask`, `updateTask` and `deleteTask` all answer the same
`Task not found` error and leave the store untouched, and the client-side
`TaskAPI.updateTask` behaves the same way; the two situations are
therefore indistinguishable to the caller. -/
theorem ownership_isolation (caller taskId : Nat) (db : List Task)
    (body : TaskPatch) (now : Int)
    (h : ∀ t ∈ db, ¬(t.id = taskId ∧ t.user = caller))
    (cuser ctaskId : String) (cupdates : ClientTaskPatch) (cnow : String)
    (ctasks : List ClientTask)
    (hc : ∀ t ∈ ctasks, ¬(t.id = ctaskId ∧ t.userId = cuser)) :
    getTask caller taskId db = .error "Task not found"
    ∧ updateTask caller taskId body now db = .error "Task not found"
    ∧ deleteTask caller taskId db = .error "Task not found"
    ∧ clientUpdateTask cuser ctaskId cupdates cnow ctasks
        = .error "Task not found" := by
  have hf : findOwned caller taskId db = none := by
    rw [findOwned, List.find?_eq_none]
    intro t ht
    simpa using h t ht
  have hcf : ctasks.find?
      (fun t => decide (t.id = ctaskId) && decide (t.userId = cuser)) = none := by
    rw [List.find?_eq_none]
    intro t ht
    simpa using hc t ht
  refine ⟨?_, ?_, ?_, ?_⟩
  · rw [getTask, hf]
  · rw [updateTask, hf]
  · rw [deleteTask, hf]
  · rw [clientUpdateTask, hcf]

/-- Witness for C2: user 1 queries task id 1, which exists but belongs to
user 2 (and, equally, id 7, which does not exist at all). -/
theorem ownership_isolation_witness :
    getTask 1 1 [mkTask 1 2 Priority.low Status.todo] = .error "Task not found"
    ∧ updateTask 1 1 {} 9 [mkTask 1 2 Priority.low Status.todo]
        = .error "Task not found"
    ∧ deleteTask 1 1 [mkTask 1 2 Priority.low Status.todo]
        = .error "Task not found"
    ∧ clientUpdateTask "a" "1" {} "t"
        [{ id := "1", userId := "b", title := "t", description := ""
           priority := Priority.low, status := Status.todo
           createdAt := "0", updatedAt := "0" }]
        = .error "Task not found" :=
  ownership_isolation 1 1 [mkTask 1 2 Priority.low Status.todo] {} 9
    (by decide) "a" "1" {} "t"
    [{ id := "1", userId := "b", title := "t", description := ""
       priority := Priority.low, status := Status.todo
       createdAt := "0", updatedAt := "0" }]
    (by decide)

/-! ### C3: ownership assignment and (non-)immutability -/

/-- C3 counterexample.  User 1 owns task 1; a PUT whose body carries a
`user` field is passed verbatim to `findByIdAndUpdate`, and the stored
owner reference changes from 1 to 2. -/
theorem owner_changed_by_update_patch :
    updateTask 1 1 { user := some 2 } 50 [mkTask 1 1 Priority.low Status.todo]
      = .ok ({ mkTask 1 1 Priority.low Status.todo with user := 2, updatedAt := 50 },
             [{ mkTask 1 1 Priority.low Status.todo with user := 2, updatedAt := 50 }])
    ∧ ({ mkTask 1 1 Priority.low Status.todo with
          user := 2, updatedAt := 50 } : Task).user = 2
    ∧ (2 : Nat) ≠ 1 :=
  ⟨rfl, by decide, by decide⟩

/-- C3 amended.  `createTask` always stores the authenticated caller as
owner, whatever `user` value the client put in the body; and an update
whose body does not carry a `user` field leaves the owner equal to the
caller (the only owner that can reach the update at all). -/
theorem owner_set_from_caller :
    (∀ (caller : Nat) (body : CreateBody) (newId : Nat) (now : Int)
        (db : List Task), ((createTask caller body newId now db).1).user = caller)
    ∧ (∀ (caller taskId : Nat) (patch : TaskPatch) (now : Int) (db : List Task)
        (t2 : Task) (db2 : List Task), patch.user = none →
        updateTask caller taskId patch now db = .ok (t2, db2) →
        t2.user = caller) := by
  constructor
  · intro caller body newId now db
    unfold createTask preSaveHook
    dsimp only
    split_ifs <;> rfl
  · intro caller taskId patch now db t2 db2 hpu hok
    unfold updateTask at hok
    cases hfind : findOwned caller taskId db with
    | none => rw [hfind] at hok; exact Except.noConfusion hok
    | some t =>
        rw [hfind] at hok
        simp only [Except.ok.injEq, Prod.mk.injEq] at hok
        have hpred := List.find?_some hfind
        have huser : t.user = caller := by
          simp only [Bool.and_eq_true, decide_eq_true_eq] at hpred
          exact hpred.2
        rw [← hok.1]
        simp [applyPatch, hpu, huser]

/-- Witness for C3 amended: a create that tries to spoof owner 99 is stored
with owner 3, and a user-less patch leaves the owner at 1. -/
theorem owner_set_from_caller_witness :
    ((createTask 3 { title := "a", user := some 99 } 5 0 []).1).user = 3
    ∧ ({ mkTask 1 1 Priority.low Status.todo with updatedAt := 7 } : Task).user = 1 :=
  ⟨owner_set_from_caller.1 3 { title := "a", user := some 99 } 5 0 [],
   owner_set_from_caller.2 1 1 {} 7 [mkTask 1 1 Priority.low Status.todo]
     { mkTask 1 1 Priority.low Status.todo with updatedAt := 7 }
     [{ mkTask 1 1 Priority.low Status.todo with updatedAt := 7 }] rfl rfl⟩

/-! ### C4: sort order -/

theorem mem_insertSorted (le : α → α → Bool) (x a : α) (l : List α) :
    a ∈ insertSorted le x l ↔ a = x ∨ a ∈ l := by
  induction l with
  | nil => simp [insertSorted]
  | cons y ys ih =>
      rw [insertSorted]
      by_cases h : le x y = true
      · simp [h]
      · simp only [Bool.not_eq_true] at h
        simp [h, ih]
        tauto

theorem insertSorted_pairwise (le : α → α → Bool)
    (htrans : ∀ a b c, le a b = true → le b c = true → le a c = true)
    (htot : ∀ a b, le a b = true ∨ le b a = true)
    (x : α) (l : List α) (h : l.Pairwise (fun a b => le a b = true)) :
    (insertSorted le x l).Pairwise (fun a b => le a b = true) := by
  induction l with
  | nil => simp [insertSorted]
  | cons y ys ih =>
      rw [List.pairwise_cons] at h
      rw [insertSorted]
      by_cases hxy : le x y = true
      · rw [if_pos hxy, List.pairwise_cons]
        refine ⟨?_, List.pairwise_cons.mpr h⟩
        intro b hb
        rcases List.mem_cons.mp hb with hb | hb
        · rw [hb]; exact hxy
        · exact htrans x y b hxy (h.1 b hb)
      · simp only [Bool.not_eq_true] at hxy
        rw [if_neg (by simp [hxy]), List.pairwise_cons]
        refine ⟨?_, ih h.2⟩
        intro b hb
        rcases (mem_insertSorted le x b ys).mp hb with hb | hb
        · rw [hb]
          rcases htot x y with hx | hx
          · rw [hx] at hxy; exact absurd hxy (by simp)
          · exact hx
        · exact h.1 b hb

theorem sortList_pairwise (le : α → α → Bool)
    (htrans : ∀ a b c, le a b = true → le b c = true → le a c = true)
    (htot : ∀ a b, le a b = true ∨ le b a = true)
    (l : List α) : (sortList le l).Pairwise (fun a b => le a b = true) := by
  induction l with
  | nil => simp [sortList]
  | cons x xs ih => exact insertSorted_pairwise le htrans htot x (sortList le xs) ih

/-- C4 counterexample.  On the server, `getTasks` hands the raw string
field to the store's sort, so sorting by priority desc over tasks with
priorities {low, high, medium} yields [medium, low, high] (lexicographic
desc), not the claimed [high, medium, low]; and sorting by status asc over
{completed, todo, in-progress} yields [completed, in-progress, todo], not
the claimed [todo, in-progress, completed]. -/
theorem server_sort_is_lexicographic :
    ((getTasks 1 { sortField := SortField.priority, sortAsc := false }
        [mkTask 1 1 Priority.low Status.todo,
         mkTask 2 1 Priority.high Status.todo,
         mkTask 3 1 Priority.medium Status.todo]).data.map Task.priority)
      = [Priority.medium, Priority.low, Priority.high]
    ∧ [Priority.medium, Priority.low, Priority.high]
      ≠ [Priority.high, Priority.medium, Priority.low]
    ∧ ((getTasks 1 { sortField := SortField.status, sortAsc := true }
        [mkTask 4 1 Priority.medium Status.completed,
         mkTask 5 1 Priority.medium Status.todo,
         mkTask 6 1 Priority.medium Status.inProgress]).data.map Task.status)
      = [Status.completed, Status.inProgress, Status.todo]
    ∧ [Status.completed, Status.inProgress, Status.todo]
      ≠ [Status.todo, Status.inProgress, Status.completed] := by
  refine ⟨by decide, by decide, by decide, by decide⟩

/-- C4 amended.  The client-side sort of `Dashboard.filteredAndSortedTasks`
does order by the fixed ordinal mappings: priority desc yields a list that
is non-increasing in `priorityOrder` ([high, medium, low] on the example),
and status asc yields a list non-decreasing in `statusOrder`
([todo, in-progress, completed] on the example); the server-side
`getTasks`, by contrast, sorts those fields as raw strings (see the
counterexample). -/
theorem client_sort_is_ordinal :
    (∀ l : List Task, (clientSort SortField.priority false l).Pairwise
        (fun a b => priorityOrder b.priority ≤ priorityOrder a.priority))
    ∧ (∀ l : List Task, (clientSort SortField.status true l).Pairwise
        (fun a b => statusOrder a.status ≤ statusOrder b.status))
    ∧ ((clientSort SortField.priority false
          [mkTask 1 1 Priority.low Status.todo,
           mkTask 2 1 Priority.high Status.todo,
           mkTask 3 1 Priority.medium Status.todo]).map Task.priority)
        = [Priority.high, Priority.medium, Priority.low]
    ∧ ((clientSort SortField.status true
          [mkTask 4 1 Priority.medium Status.completed,
           mkTask 5 1 Priority.medium Status.todo,
           mkTask 6 1 Priority.medium Status.inProgress]).map Task.status)
        = [Status.todo, Status.inProgress, Status.completed] := by
  refine ⟨?_, ?_, by decide, by decide⟩
  · intro l
    have h := sortList_pairwise
      (fun a b : Task => clientFieldLe SortField.priority b a)
      (by intro a b c hab hbc
          simp only [clientFieldLe, decide_eq_true_eq] at hab hbc ⊢
          omega)
      (by intro a b
          simp only [clientFieldLe, decide_eq_true_eq]
          omega)
      l
    refine h.imp ?_
    intro a b hab
    simpa [clientFieldLe] using hab
  · intro l
    have h := sortList_pairwise
      (fun a b : Task => clientFieldLe SortField.status a b)
      (by intro a b c hab hbc
          simp only [clientFieldLe, decide_eq_true_eq] at hab hbc ⊢
          omega)
      (by intro a b
          simp only [clientFieldLe, decide_eq_true_eq]
          omega)
      l
    refine h.imp ?_
    intro a b hab
    simpa [clientFieldLe] using hab

/-! ### C5: token issue / verify -/

/-- C5 counterexample.  The token is base64-encoded JSON with no signature,
so a forged well-formed token carrying altered claims — here the username
changed from `alice` to `mallory` — differs from every token `issue` would
have produced for the user, yet `verifyToken` accepts it and returns the
tampered claims: tampering is not detectable at verification time. -/
theorem token_tampering_undetected :
    TokenString.wellFormed
        { id := "1", username := "mallory", email := "a@x.com", exp := tokenTTL }
      ≠ generateToken
          { id := "1", username := "alice", email := "a@x.com", createdAt := "t0" } 0
    ∧ verifyToken
        (TokenString.wellFormed
          { id := "1", username := "mallory", email := "a@x.com", exp := tokenTTL })
        0 "now"
      = some { id := "1", username := "mallory", email := "a@x.com", createdAt := "now" }
    ∧ ("mallory" : String) ≠ "alice" := by
  refine ⟨by decide, rfl, by decide⟩

/-- C5 amended.  `verifyToken` returns the embedded identity claims of a
well-formed token whose expiry has not passed, returns `null` both for a
well-formed token whose expiry is strictly in the past and for a malformed
token (the two failures are not distinguished further), and performs no
signature check: any well-formed payload whatsoever — tampered or not —
verifies successfully. -/
theorem verifyToken_spec (u : ClientUser) (issued now : Int) (nowISO : String) :
    (now ≤ issued + tokenTTL →
        verifyToken (generateToken u issued) now nowISO
          = some { id := u.id, username := u.username, email := u.email,
                   createdAt := nowISO })
    ∧ (issued + tokenTTL < now →
        verifyToken (generateToken u issued) now nowISO = none)
    ∧ (∀ s, verifyToken (TokenString.malformed s) now nowISO = none)
    ∧ (∀ p : TokenPayload, now ≤ p.exp →
        verifyToken (TokenString.wellFormed p) now nowISO
          = some { id := p.id, username := p.username, email := p.email,
                   createdAt := nowISO }) := by
  refine ⟨?_, ?_, fun s => rfl, ?_⟩
  · intro hle
    rw [generateToken, verifyToken, if_neg (not_lt.mpr hle)]
  · intro hlt
    rw [generateToken, verifyToken, if_pos hlt]
  · intro p hle
    rw [verifyToken, if_neg (not_lt.mpr hle)]

/-- Witness for C5 amended: a fresh token verifies to its claims, the same
token 24h+1ms later verifies to null, a malformed string verifies to null,
and an arbitrary unexpired payload is accepted. -/
theorem verifyToken_spec_witness :
    verifyToken
        (generateToken
          { id := "1", username := "alice", email := "a@x.com", createdAt := "t0" } 0)
        10 "n"
      = some { id := "1", username := "alice", email := "a@x.com", createdAt := "n" }
    ∧ verifyToken
        (generateToken
          { id := "1", username := "alice", email := "a@x.com", createdAt := "t0" } 0)
        (tokenTTL + 1) "n" = none
    ∧ verifyToken (TokenString.malformed "zzz") 10 "n" = none
    ∧ verifyToken
        (TokenString.wellFormed
          { id := "9", username := "eve", email := "e@x.com", exp := 11 })
        10 "n"
      = some { id := "9", username := "eve", email := "e@x.com", createdAt := "n" } :=
  ⟨(verifyToken_spec
      { id := "1", username := "alice", email := "a@x.com", createdAt := "t0" }
      0 10 "n").1 (by decide),
   (verifyToken_spec
      { id := "1", username := "alice", email := "a@x.com", createdAt := "t0" }
      0 (tokenTTL + 1) "n").2.1 (by decide),
   (verifyToken_spec
      { id := "1", username := "alice", email := "a@x.com", createdAt := "t0" }
      0 10 "n").2.2.1 "zzz",
   (verifyToken_spec
      { id := "1", username := "alice", email := "a@x.com", createdAt := "t0" }
      0 10 "n").2.2.2
     { id := "9", username := "eve", email := "e@x.com", exp := 11 } (by decide)⟩

/-! ### C6: pagination -/

/-- `(T + L - 1) / L` is the ceiling of `T / L`: it is the unique `p` with
`T ≤ p * L < T + L`. -/
theorem ceil_div_bounds (T L : Nat) (h : 1 ≤ L) :
    T ≤ (T + L - 1) / L * L ∧ (T + L - 1) / L * L < T + L := by
  have h1 := Nat.div_add_mod (T + L - 1) L
  have h2 : (T + L - 1) % L < L := Nat.mod_lt _ (by omega)
  have h3 : (T + L - 1) / L * L = L * ((T + L - 1) / L) := Nat.mul_comm _ _
  rw [h3]
  generalize hm : L * ((T + L - 1) / L) = m at h1 ⊢
  omega

/-- C6.  The limit validator accepts exactly the integers in [1, 100];
`total` is the size of the filtered set before pagination; the returned
page holds at most `limit` tasks; and `pages` is the ceiling of
`total / limit` (characterised by `total ≤ pages·limit < total + limit`). -/
theorem pagination_bounds (caller : Nat) (q : ListQuery) (db : List Task)
    (hlim : 1 ≤ q.limit) :
    (∀ l : Int, validateLimitParam (some l) = false ↔ (l < 1 ∨ 100 < l))
    ∧ (getTasks caller q db).total = (db.filter (matchesQuery caller q)).length
    ∧ (getTasks caller q db).data.length ≤ q.limit
    ∧ (getTasks caller q db).total ≤ (getTasks caller q db).pages * q.limit
    ∧ (getTasks caller q db).pages * q.limit
        < (getTasks caller q db).total + q.limit := by
  have hbounds := ceil_div_bounds (db.filter (matchesQuery caller q)).length
    q.limit hlim
  refine ⟨?_, rfl, ?_, hbounds.1, hbounds.2⟩
  · intro l
    simp only [validateLimitParam, Bool.and_eq_false_iff, decide_eq_false_iff_not,
      not_le]
  · exact List.length_take_le _ _

/-- Witness for C6: five matching tasks with `limit = 2` give a page of at
most 2 tasks, `pages = 3` with `5 ≤ 3·2 < 5 + 2`, and `limit = 101` fails
validation. -/
theorem pagination_bounds_witness :
    validateLimitParam (some 101) = false
    ∧ (getTasks 1 { limit := 2 }
        [mkTask 1 1 Priority.low Status.todo, mkTask 2 1 Priority.low Status.todo,
         mkTask 3 1 Priority.low Status.todo, mkTask 4 1 Priority.low Status.todo,
         mkTask 5 1 Priority.low Status.todo]).data.length ≤ 2
    ∧ (getTasks 1 { limit := 2 }
        [mkTask 1 1 Priority.low Status.todo, mkTask 2 1 Priority.low Status.todo,
         mkTask 3 1 Priority.low Status.todo, mkTask 4 1 Priority.low Status.todo,
         mkTask 5 1 Priority.low Status.todo]).total
      ≤ (getTasks 1 { limit := 2 }
        [mkTask 1 1 Priority.low Status.todo, mkTask 2 1 Priority.low Status.todo,
         mkTask 3 1 Priority.low Status.todo, mkTask 4 1 Priority.low Status.todo,
         mkTask 5 1 Priority.low Status.todo]).pages * 2 :=
  ⟨((pagination_bounds 1 { limit := 2 }
      [mkTask 1 1 Priority.low Status.todo, mkTask 2 1 Priority.low Status.todo,
       mkTask 3 1 Priority.low Status.todo, mkTask 4 1 Priority.low Status.todo,
       mkTask 5 1 Priority.low Status.todo] (by decide)).1 101).mpr (by omega),
   (pagination_bounds 1 { limit := 2 }
      [mkTask 1 1 Priority.low Status.todo, mkTask 2 1 Priority.low Status.todo,
       mkTask 3 1 Priority.low Status.todo, mkTask 4 1 Priority.low Status.todo,
       mkTask 5 1 Priority.low Status.todo] (by decide)).2.2.1,
   (pagination_bounds 1 { limit := 2 }
      [mkTask 1 1 Priority.low Status.todo, mkTask 2 1 Priority.low Status.todo,
       mkTask 3 1 Priority.low Status.todo, mkTask 4 1 Priority.low Status.todo,
       mkTask 5 1 Priority.low Status.todo] (by decide)).2.2.2.1⟩

/-! ### C7: bulk update -/

/-- Zipping a list against its image under `g` and keeping the unequal
pairs counts exactly the elements that `g` changes. -/
theorem zip_map_modified_count {α : Type} [DecidableEq α] (g : α → α)
    (l : List α) :
    ((l.zip (l.map g)).filter (fun ab => decide (ab.1 ≠ ab.2))).length
      = (l.filter (fun a => decide (a ≠ g a))).length := by
  induction l with
  | nil => rfl
  | cons x xs ih =>
      by_cases h : x = g x
      · have h1 : ¬ (x ≠ g x) := not_not_intro h
        simp only [List.map_cons, List.zip_cons_cons, List.filter_cons]
        simp [h1]
        simpa using ih
      · simp only [List.map_cons, List.zip_cons_cons, List.filter_cons]
        simp [h]
        simpa using ih

/-- C7.  `bulkUpdateTasks` rejects an empty id list with the validation
error; on a non-empty list it succeeds, leaves every task of another owner
and every unlisted task untouched (ids of other owners are skipped
silently, not an error), and reports as `modifiedCount` exactly the number
of stored records whose value actually changed. -/
theorem bulkUpdate_behavior :
    (∀ (caller : Nat) (updates : TaskPatch) (now : Int) (db : List Task),
        bulkUpdateTasks caller [] updates now db
          = .error "Task IDs array is required")
    ∧ (∀ (caller : Nat) (ids : List Nat) (updates : TaskPatch) (now : Int)
        (db : List Task) (n : Nat) (db2 : List Task),
        bulkUpdateTasks caller ids updates now db = .ok (n, db2) →
          db2.length = db.length
          ∧ (∀ (i : Nat) (h : i < db.length) (h2 : i < db2.length),
              db[i].user ≠ caller → db2[i] = db[i])
          ∧ (∀ (i : Nat) (h : i < db.length) (h2 : i < db2.length),
              db[i].id ∉ ids → db2[i] = db[i])
          ∧ n = ((db.zip db2).filter (fun ab => decide (ab.1 ≠ ab.2))).length) := by
  constructor
  · intro caller updates now db
    rfl
  · intro caller ids updates now db n db2 hok
    rw [bulkUpdateTasks] at hok
    by_cases hids : ids.isEmpty
    · rw [if_pos hids] at hok
      exact Except.noConfusion hok
    · rw [if_neg hids] at hok
      simp only [Except.ok.injEq, Prod.mk.injEq] at hok
      obtain ⟨hn, hdb2⟩ := hok
      subst hdb2
      refine ⟨List.length_map _ _, ?_, ?_, ?_⟩
      · intro i h h2 huser
        rw [List.getElem_map]
        simp [huser]
      · intro i h h2 hid
        rw [List.getElem_map]
        simp [hid]
      · rw [← hn, zip_map_modified_count]
        congr 1
        apply List.filter_congr
        intro t _
        by_cases hm : (decide (t.id ∈ ids) && decide (t.user = caller)) = true
        · have hg : (if (decide (t.id ∈ ids) && decide (t.user = caller)) = true
              then applyPatch updates now t else t) = applyPatch updates now t :=
            if_pos hm
          simp only [hm, Bool.true_and, hg]
          exact decide_eq_decide.mpr ne_comm
        · rw [Bool.not_eq_true] at hm
          have hg : (if (decide (t.id ∈ ids) && decide (t.user = caller)) = true
              then applyPatch updates now t else t) = t := if_neg (by simp [hm])
          simp only [hm, Bool.false_and, hg]
          simp

/-- Witness for C7 (the spec's own example): owner 1 bulk-completes a task
of their own and one of user 2; the call succeeds, modifies exactly one
record, leaves user 2's task untouched, and reports `modifiedCount = 1`. -/
theorem bulkUpdate_behavior_witness :
    bulkUpdateTasks 1 [] { status := some Status.completed } 9
        [mkTask 1 1 Priority.low Status.todo]
      = .error "Task IDs array is required"
    ∧ ([{ mkTask 1 1 Priority.low Status.todo with
            status := Status.completed, updatedAt := 9 },
        mkTask 2 2 Priority.low Status.todo] : List Task)[1]
        = mkTask 2 2 Priority.low Status.todo
    ∧ (1 : Nat) = (([mkTask 1 1 Priority.low Status.todo,
          mkTask 2 2 Priority.low Status.todo].zip
          [{ mkTask 1 1 Priority.low Status.todo with
               status := Status.completed, updatedAt := 9 },
           mkTask 2 2 Priority.low Status.todo]).filter
          (fun ab => decide (ab.1 ≠ ab.2))).length :=
  ⟨bulkUpdate_behavior.1 1 { status := some Status.completed } 9
      [mkTask 1 1 Priority.low Status.todo],
   (bulkUpdate_behavior.2 1 [1, 2] { status := some Status.completed } 9
      [mkTask 1 1 Priority.low Status.todo, mkTask 2 2 Priority.low Status.todo]
      1
      [{ mkTask 1 1 Priority.low Status.todo with
           status := Status.completed, updatedAt := 9 },
       mkTask 2 2 Priority.low Status.todo]
      rfl).2.1 1 (by decide) (by decide) (by decide),
   (bulkUpdate_behavior.2 1 [1, 2] { status := some Status.completed } 9
      [mkTask 1 1 Priority.low Status.todo, mkTask 2 2 Priority.low Status.todo]
      1
      [{ mkTask 1 1 Priority.low Status.todo with
           status := Status.completed, updatedAt := 9 },
       mkTask 2 2 Priority.low Status.todo]
      rfl).2.2.2⟩

/-! ### C8 and C10: statistics -/

/-- `getTaskStats` only looks at the owner's non-archived slice of the
store: two stores with the same slice give the same stats. -/
theorem getTaskStats_congr (u : Nat) (now : Int) (db db2 : List Task)
    (h : db.filter (fun t => decide (t.user = u) && !t.isArchived)
       = db2.filter (fun t => decide (t.user = u) && !t.isArchived)) :
    getTaskStats u now db = getTaskStats u now db2 := by
  simp only [getTaskStats, h]

/-- C8.  Stats are a function of the owner's non-archived tasks only;
archiving every record drives every count to zero while the record count
of the store is unchanged; and the aggregation's overdue condition counts
a task exactly when a due date is set, lies strictly in the past, and the
status is not `completed` — a task without a due date is never counted. -/
theorem stats_scope_and_overdue :
    (∀ (u : Nat) (now : Int) (db : List Task),
        getTaskStats u now db
          = getTaskStats u now
              (db.filter (fun t => decide (t.user = u) && !t.isArchived)))
    ∧ (∀ (u : Nat) (now : Int) (db : List Task),
        getTaskStats u now (db.map (fun t => { t with isArchived := true }))
            = zeroStats
        ∧ (db.map (fun t => { t with isArchived := true })).length = db.length)
    ∧ (∀ (now : Int) (t : Task),
        overdueAgg now t = true
          ↔ ∃ d, t.dueDate = some d ∧ d < now ∧ t.status ≠ Status.completed) := by
  refine ⟨?_, ?_, ?_⟩
  · intro u now db
    apply getTaskStats_congr
    rw [List.filter_filter]
    apply List.filter_congr
    intro t _
    by_cases h : (decide (t.user = u) && !t.isArchived) = true
    · rw [h]; rfl
    · rw [Bool.not_eq_true] at h; rw [h]; rfl
  · intro u now db
    have hnil : (db.map (fun t => { t with isArchived := true })).filter
        (fun t => decide (t.user = u) && !t.isArchived) = [] := by
      rw [List.filter_eq_nil_iff]
      intro t ht
      rcases List.mem_map.mp ht with ⟨s, _, hs⟩
      rw [← hs]
      simp
    exact ⟨by simp [getTaskStats, hnil], List.length_map _ _⟩
  · intro now t
    rw [overdueAgg]
    cases hd : t.dueDate with
    | none => simp [hd]
    | some d => simp [hd]

/-- C10.  When the owner's non-archived slice of the store is empty —
in particular for a user with no tasks at all — `getTaskStats` returns the
explicit all-zero record rather than failing or returning nothing. -/
theorem stats_zero_when_no_active (u : Nat) (now : Int) (db : List Task)
    (h : db.filter (fun t => decide (t.user = u) && !t.isArchived) = []) :
    getTaskStats u now db
      = { total := 0, completed := 0, inProgress := 0, todo := 0,
          highPriority := 0, overdue := 0 } := by
  simp [getTaskStats, h]
  rfl

/-- Witness for C10: a user with an empty store, and a user whose only
task is archived, both get the explicit zero record. -/
theorem stats_zero_when_no_active_witness :
    getTaskStats 7 0 []
      = { total := 0, completed := 0, inProgress := 0, todo := 0,
          highPriority := 0, overdue := 0 }
    ∧ getTaskStats 7 0 [{ mkTask 1 7 Priority.high Status.todo with isArchived := true }]
      = { total := 0, completed := 0, inProgress := 0, todo := 0,
          highPriority := 0, overdue := 0 } :=
  ⟨stats_zero_when_no_active 7 0 [] rfl,
   stats_zero_when_no_active 7 0
     [{ mkTask 1 7 Priority.high Status.todo with isArchived := true }] rfl⟩

/-! ### C9: register / login round trip -/

theorem find?_append_of_none {α : Type} {p : α → Bool} {l1 l2 : List α}
    (h : l1.find? p = none) : (l1 ++ l2).find? p = l2.find? p := by
  induction l1 with
  | nil => rfl
  | cons a as ih =>
      cases hpa : p a with
      | true => simp [List.find?_cons, hpa] at h
      | false =>
          rw [List.find?_cons_of_neg _ (by simp [hpa])] at h
          rw [List.cons_append, List.find?_cons_of_neg _ (by simp [hpa])]
          exact ih h

/-- C9.  A successful `register` stores the hash of the password and hands
back the public user; a `login` against the resulting store with the same
email and password finds exactly that user (register guarantees the email
was previously absent) and succeeds with the same identity.  Conversely,
`login` with an unknown email and `login` with a known email but a
password whose hash does not match both produce the one undifferentiated
`Invalid credentials` error — an `Except.error` carries no token. -/
theorem register_login_roundtrip (hash : String → String)
    (username email password : String) (newId nowISO : String)
    (now now2 : Int) (users users2 : List StoredUser)
    (pub : ClientUser) (tok : TokenString)
    (hreg : register hash username email password newId nowISO now users
              = .ok (pub, tok, users2)) :
    login hash email password now2 users2 = .ok (pub, generateToken pub now2)
    ∧ pub.id = newId ∧ pub.username = username ∧ pub.email = email
    ∧ (∀ (e pw : String) (n : Int) (us : List StoredUser),
        us.find? (fun u => u.email = e) = none →
        login hash e pw n us = .error "Invalid credentials")
    ∧ (∀ (e pw : String) (n : Int) (us : List StoredUser) (u : StoredUser),
        us.find? (fun u => u.email = e) = some u → hash pw ≠ u.password →
        login hash e pw n us = .error "Invalid credentials") := by
  rw [register] at hreg
  cases hfind : users.find? (fun u => u.email = email) with
  | some u => rw [hfind] at hreg; exact Except.noConfusion hreg
  | none =>
      rw [hfind] at hreg
      simp only [Except.ok.injEq, Prod.mk.injEq] at hreg
      obtain ⟨hpub, _, husers⟩ := hreg
      refine ⟨?_, ?_, ?_, ?_, ?_, ?_⟩
      · rw [login, ← husers, find?_append_of_none hfind,
          List.find?_cons_of_pos _ (by simp)]
        dsimp only
        rw [if_pos rfl, ← hpub]
      · rw [← hpub]; rfl
      · rw [← hpub]; rfl
      · rw [← hpub]; rfl
      · intro e pw n us hnone
        rw [login, hnone]
      · intro e pw n us u hsome hne
        rw [login, hsome]
        dsimp only
        rw [if_neg hne]

/-- Witness for C9: registering alice and logging back in with the same
email and password succeeds with the same identity; an unknown email and a
wrong password both yield the identical `Invalid credentials` error. -/
theorem register_login_roundtrip_witness :
    login (fun s => s ++ "#") "a@x.com" "Passw0rd" 5
        [{ id := "1", username := "alice", email := "a@x.com",
           password := "Passw0rd#", createdAt := "t0" }]
      = .ok ({ id := "1", username := "alice", email := "a@x.com",
               createdAt := "t0" },
             generateToken
               { id := "1", username := "alice", email := "a@x.com",
                 createdAt := "t0" } 5)
    ∧ login (fun s => s ++ "#") "b@x.com" "Passw0rd" 5 []
        = .error "Invalid credentials"
    ∧ login (fun s => s ++ "#") "a@x.com" "wrong" 5
        [{ id := "1", username := "alice", email := "a@x.com",
           password := "Passw0rd#", createdAt := "t0" }]
        = .error "Invalid credentials" :=
  ⟨(register_login_roundtrip (fun s => s ++ "#") "alice" "a@x.com" "Passw0rd"
      "1" "t0" 0 5 []
      [{ id := "1", username := "alice", email := "a@x.com",
         password := "Passw0rd#", createdAt := "t0" }]
      { id := "1", username := "alice", email := "a@x.com", createdAt := "t0" }
      (generateToken
        { id := "1", username := "alice", email := "a@x.com", createdAt := "t0" } 0)
      rfl).1,
   (register_login_roundtrip (fun s => s ++ "#") "alice" "a@x.com" "Passw0rd"
      "1" "t0" 0 5 []
      [{ id := "1", username := "alice", email := "a@x.com",
         password := "Passw0rd#", createdAt := "t0" }]
      { id := "1", username := "alice", email := "a@x.com", createdAt := "t0" }
      (generateToken
        { id := "1", username := "alice", email := "a@x.com", createdAt := "t0" } 0)
      rfl).2.2.2.2.1 "b@x.com" "Passw0rd" 5 [] rfl,
   (register_login_roundtrip (fun s => s ++ "#") "alice" "a@x.com" "Passw0rd"
      "1" "t0" 0 5 []
      [{ id := "1", username := "alice", email := "a@x.com",
         password := "Passw0rd#", createdAt := "t0" }]
      { id := "1", username := "alice", email := "a@x.com", createdAt := "t0" }
      (generateToken
        { id := "1", username := "alice", email := "a@x.com", createdAt := "t0" } 0)
      rfl).2.2.2.2.2 "a@x.com" "wrong" 5
     [{ id := "1", username := "alice", email := "a@x.com",
        password := "Passw0rd#", createdAt := "t0" }]
     { id := "1", username := "alice", email := "a@x.com",
       password := "Passw0rd#", createdAt := "t0" }
     rfl (by decide)⟩

end TaskFlow
